import Mathlib

/-!
Verification of the single-segment Muskingum-Cunge time-stepping harness
from `notebooks/mc-wave-routing-demo.ipynb`.

The notebook drives an external routing routine `singlesegment` (a compiled
Fortran solver treated as an opaque black box) through a loop of `tsteps`
timesteps.  Each step builds a `SolverInput` from the fixed channel
parameters, the current upstream boundary values and the previous-step
downstream state, calls the solver, records the downstream flow and elapsed
time, and threads the returned `(qdc, velc, depthc)` triple into the next
step as `(qdp, velp, depthp)`.

The embedding below models flow values as rationals (the harness itself
performs no arithmetic on solver outputs beyond threading them, and the
only harness-level arithmetic is `k * dt`), and treats the solver as an
arbitrary function `SolverInput → SolverOutput`, so every theorem holds for
every possible black-box solver.  A ghost field `calls` records the exact
argument record of every solver invocation, so that claims about what is
passed to the solver (and whether it is invoked at all) can be stated.
-/

namespace MC

/-- Channel, slope, roughness and discretization parameters set up in the
notebook cells before the loops (`dt`, `tsteps` aside, which is the loop
bound; `dx`, `bw`, `tw`, `twcc`, `cs`, `n_manning`, `n_manning_cc`, `s0`). -/
structure ChannelParams where
  dt : ℚ
  dx : ℚ
  bw : ℚ
  tw : ℚ
  twcc : ℚ
  cs : ℚ
  n_manning : ℚ
  n_manning_cc : ℚ
  s0 : ℚ
  deriving DecidableEq

/-- The full named-argument record passed to `singlesegment` at each call,
in the notebook's keyword order. -/
structure SolverInput where
  dt : ℚ
  qup : ℚ
  quc : ℚ
  qdp : ℚ
  qlat : ℚ
  dx : ℚ
  bw : ℚ
  tw : ℚ
  twcc : ℚ
  n_manning : ℚ
  n_manning_cc : ℚ
  cs : ℚ
  s0 : ℚ
  velp : ℚ
  depthp : ℚ
  deriving DecidableEq

/-- The `(qdc, velc, depthc)` triple returned by `singlesegment`. -/
structure SolverOutput where
  qdc : ℚ
  velc : ℚ
  depthc : ℚ
  deriving DecidableEq

/-- The external routing routine, an opaque total function of its argument
record. -/
def Solver : Type := SolverInput → SolverOutput

/-- The variables of the notebook loop: the channel parameters, the
upstream boundary pair `qup`/`quc`, the previous-step downstream state
`qdp`/`velp`/`depthp`, and the accumulator lists `q_result`, `t_result`,
`qus`.  The extra field `calls` is ghost instrumentation recording each
solver invocation's argument record. -/
@[ext]
structure LoopState where
  ps : ChannelParams
  qup : ℚ
  quc : ℚ
  qdp : ℚ
  velp : ℚ
  depthp : ℚ
  q_result : List ℚ
  t_result : List ℚ
  qus : List ℚ
  calls : List SolverInput
  deriving DecidableEq

/-- Assemble the solver argument record exactly as the notebook's call site
does: geometry from the fixed parameters, boundary and state from the loop
variables. -/
def mkInput (p : ChannelParams) (qup quc qlat qdp velp depthp : ℚ) : SolverInput :=
  { dt := p.dt, qup := qup, quc := quc, qdp := qdp, qlat := qlat,
    dx := p.dx, bw := p.bw, tw := p.tw, twcc := p.twcc,
    n_manning := p.n_manning, n_manning_cc := p.n_manning_cc,
    cs := p.cs, s0 := p.s0, velp := velp, depthp := depthp }

/-- One iteration of the notebook loop at step `k`: optionally update the
upstream boundary pair (`upd` is the body of the boundary-condition
conditional; the identity for experiment 1), call the solver, append
`qdc` to `q_result`, `k * dt` to `t_result` and `quc` to `qus`, then set
`(qdp, depthp, velp) := (qdc, depthc, velc)` for the next step. -/
def mcStep (solver : Solver) (upd : ℕ → ℚ × ℚ → ℚ × ℚ) (qlat : ℚ) (k : ℕ)
    (s : LoopState) : LoopState :=
  let qu := upd k (s.qup, s.quc)
  let input := mkInput s.ps qu.1 qu.2 qlat s.qdp s.velp s.depthp
  let out := solver input
  { s with
    qup := qu.1, quc := qu.2,
    qdp := out.qdc, velp := out.velc, depthp := out.depthc,
    q_result := s.q_result ++ [out.qdc],
    t_result := s.t_result ++ [(k : ℚ) * s.ps.dt],
    qus := s.qus ++ [qu.2],
    calls := s.calls ++ [input] }

/-- The notebook loop `for k in range(0, tsteps)`: apply `mcStep` at steps
`0, 1, …, tsteps - 1` in order, starting from state `s`. -/
def mcRun (solver : Solver) (upd : ℕ → ℚ × ℚ → ℚ × ℚ) (qlat : ℚ) (s : LoopState) :
    ℕ → LoopState
  | 0 => s
  | n + 1 => mcStep solver upd qlat n (mcRun solver upd qlat s n)

/-- The loop state right before the loop starts: initial boundary pair and
initial downstream state as assigned in the notebook, with all accumulator
lists freshly initialized to `[]`. -/
def initState (p : ChannelParams) (qup quc qdp velp depthp : ℚ) : LoopState :=
  { ps := p, qup := qup, quc := quc, qdp := qdp, velp := velp, depthp := depthp,
    q_result := [], t_result := [], qus := [], calls := [] }

/-- The notebook's channel parameters: `dt = 600`, `dx = 2000`, `bw = 112`,
`tw = 448`, `twcc = 623`, `cs = 1.40`, `n_manning = 0.028`,
`n_manning_cc = 0.031`, `s0 = 0.0018`. -/
def demoParams : ChannelParams :=
  { dt := 600, dx := 2000, bw := 112, tw := 448, twcc := 623, cs := 14/10,
    n_manning := 28/1000, n_manning_cc := 31/1000, s0 := 18/10000 }

/-- Experiment 1 has no boundary-condition update inside the loop: `qup` and
`quc` keep the values assigned before the loop. -/
def idUpd : ℕ → ℚ × ℚ → ℚ × ℚ := fun _ qu => qu

/-- Experiment 2's boundary conditional, transcribed statement by
statement: a first `if k <= 5` assignment, then a second `if 5 < k < 10`
whose `else` branch (the only `else` in the chain) reasserts the baseline.
The second conditional always overwrites the pair. -/
def pulseUpd : ℕ → ℚ × ℚ → ℚ × ℚ := fun k qu =>
  let qu1 := if k ≤ 5 then ((21/100 : ℚ), (21/100 : ℚ)) else qu
  if 5 < k ∧ k < 10 then ((1 : ℚ), (1 : ℚ)) else ((21/100 : ℚ), (21/100 : ℚ))

/-- Experiment 1 initial conditions: `qup = quc = 0.41`, `qdp = 0.21`,
`velp = 0.070`, `depthp = 0.010`. -/
def exp1Init : LoopState :=
  initState demoParams (41/100) (41/100) (21/100) (7/100) (1/100)

/-- Experiment 2 initial conditions: `qup = quc = qdp = 0.21`,
`velp = 0.070`, `depthp = 0.010`. -/
def exp2Init : LoopState :=
  initState demoParams (21/100) (21/100) (21/100) (7/100) (1/100)

/-- Experiment 1's loop (`qlat = 0`, no boundary update), run for `n`
steps. -/
def exp1Run (solver : Solver) (n : ℕ) : LoopState :=
  mcRun solver idUpd 0 exp1Init n

/-- Experiment 2's loop (`qlat = 0`, pulse boundary update), run for `n`
steps. -/
def exp2Run (solver : Solver) (n : ℕ) : LoopState :=
  mcRun solver pulseUpd 0 exp2Init n

/-! ### Closed forms for the loop

`quSeq upd u c k` is the upstream boundary pair right before step `k`,
`stSeq … k` the downstream state triple `(qdp, velp, depthp)` right before
step `k`, and `callAt … k` the solver argument record of step `k`. -/

/-- The upstream boundary pair before step `k` (after `k` applications of
the boundary update). -/
def quSeq (upd : ℕ → ℚ × ℚ → ℚ × ℚ) (u c : ℚ) : ℕ → ℚ × ℚ
  | 0 => (u, c)
  | k + 1 => upd k (quSeq upd u c k)

/-- The downstream state triple `(qdp, velp, depthp)` before step `k`. -/
def stSeq (solver : Solver) (upd : ℕ → ℚ × ℚ → ℚ × ℚ) (qlat : ℚ)
    (p : ChannelParams) (u c q v d : ℚ) : ℕ → ℚ × ℚ × ℚ
  | 0 => (q, v, d)
  | k + 1 =>
    let qu := quSeq upd u c (k + 1)
    let t := stSeq solver upd qlat p u c q v d k
    let o := solver (mkInput p qu.1 qu.2 qlat t.1 t.2.1 t.2.2)
    (o.qdc, o.velc, o.depthc)

/-- The solver argument record of step `k`. -/
def callAt (solver : Solver) (upd : ℕ → ℚ × ℚ → ℚ × ℚ) (qlat : ℚ)
    (p : ChannelParams) (u c q v d : ℚ) (k : ℕ) : SolverInput :=
  let qu := quSeq upd u c (k + 1)
  let t := stSeq solver upd qlat p u c q v d k
  mkInput p qu.1 qu.2 qlat t.1 t.2.1 t.2.2

/-- Closed form of the loop: after `n` steps from an arbitrary starting
state, every field of the loop state is determined by the starting fields
through `quSeq`, `stSeq` and `callAt`, and each accumulator list is the
starting list extended by one entry per step. -/
theorem mcRun_eq (solver : Solver) (upd : ℕ → ℚ × ℚ → ℚ × ℚ) (qlat : ℚ)
    (s : LoopState) (n : ℕ) :
    mcRun solver upd qlat s n =
      { ps := s.ps,
        qup := (quSeq upd s.qup s.quc n).1,
        quc := (quSeq upd s.qup s.quc n).2,
        qdp := (stSeq solver upd qlat s.ps s.qup s.quc s.qdp s.velp s.depthp n).1,
        velp := (stSeq solver upd qlat s.ps s.qup s.quc s.qdp s.velp s.depthp n).2.1,
        depthp := (stSeq solver upd qlat s.ps s.qup s.quc s.qdp s.velp s.depthp n).2.2,
        q_result := s.q_result ++ (List.range n).map
          (fun k => (solver (callAt solver upd qlat s.ps s.qup s.quc s.qdp s.velp s.depthp k)).qdc),
        t_result := s.t_result ++ (List.range n).map (fun k : ℕ => (k : ℚ) * s.ps.dt),
        qus := s.qus ++ (List.range n).map (fun k => (quSeq upd s.qup s.quc (k + 1)).2),
        calls := s.calls ++ (List.range n).map
          (callAt solver upd qlat s.ps s.qup s.quc s.qdp s.velp s.depthp) } := by
  induction n with
  | zero => simp [mcRun, quSeq, stSeq]
  | succ n ih =>
    show mcStep solver upd qlat n (mcRun solver upd qlat s n) = _
    rw [ih]
    apply LoopState.ext <;>
      simp [mcStep, mkInput, callAt, stSeq, quSeq, List.range_succ]

/-- The call trace of a run from freshly initialized accumulators is one
`callAt` record per step, in step order. -/
theorem mcRun_calls (solver : Solver) (upd : ℕ → ℚ × ℚ → ℚ × ℚ) (qlat : ℚ)
    (p : ChannelParams) (u c q v d : ℚ) (n : ℕ) :
    (mcRun solver upd qlat (initState p u c q v d) n).calls
      = (List.range n).map (callAt solver upd qlat p u c q v d) := by
  rw [mcRun_eq]; rfl

/-- The flow results of a run from freshly initialized accumulators. -/
theorem mcRun_q_result (solver : Solver) (upd : ℕ → ℚ × ℚ → ℚ × ℚ) (qlat : ℚ)
    (p : ChannelParams) (u c q v d : ℚ) (n : ℕ) :
    (mcRun solver upd qlat (initState p u c q v d) n).q_result
      = (List.range n).map
          (fun k => (solver (callAt solver upd qlat p u c q v d k)).qdc) := by
  rw [mcRun_eq]; rfl

/-- The elapsed-time results of a run from freshly initialized
accumulators. -/
theorem mcRun_t_result (solver : Solver) (upd : ℕ → ℚ × ℚ → ℚ × ℚ) (qlat : ℚ)
    (p : ChannelParams) (u c q v d : ℚ) (n : ℕ) :
    (mcRun solver upd qlat (initState p u c q v d) n).t_result
      = (List.range n).map (fun k : ℕ => (k : ℚ) * p.dt) := by
  rw [mcRun_eq]; rfl

/-- The recorded upstream boundary values of a run from freshly
initialized accumulators. -/
theorem mcRun_qus (solver : Solver) (upd : ℕ → ℚ × ℚ → ℚ × ℚ) (qlat : ℚ)
    (p : ChannelParams) (u c q v d : ℚ) (n : ℕ) :
    (mcRun solver upd qlat (initState p u c q v d) n).qus
      = (List.range n).map (fun k => (quSeq upd u c (k + 1)).2) := by
  rw [mcRun_eq]; rfl

/-- List identity used for the state-threading claim: prepending `f 0` to
the successors of `f` over `range n` is the same as appending `f n` to `f`
over `range n`. -/
theorem cons_map_succ_range {α : Type} (f : ℕ → α) (n : ℕ) :
    f 0 :: (List.range n).map (fun k => f (k + 1))
      = (List.range n).map f ++ [f n] := by
  have h1 : f 0 :: (List.range n).map (fun k => f (k + 1))
      = (List.range (n + 1)).map f := by
    rw [List.range_succ_eq_map, List.map_cons, List.map_map]
    rfl
  rw [h1, List.range_succ, List.map_append, List.map_cons, List.map_nil]

/-- The boundary pair is unchanged across steps when the loop body contains
no boundary assignment (experiment 1). -/
theorem quSeq_id (u c : ℚ) (m : ℕ) : quSeq idUpd u c m = (u, c) := by
  induction m with
  | zero => rfl
  | succ m ih => simp [quSeq, idUpd, ih]

/-- The boundary value produced by the pulse conditional at step `k`: the
pulse value `1` for `k ∈ {6, 7, 8, 9}` and the baseline `0.21` for every
other step, including every `k ≥ 10`. -/
def pulseVal (k : ℕ) : ℚ := if 6 ≤ k ∧ k ≤ 9 then 1 else 21/100

/-- The pulse conditional overwrites the boundary pair at every step: its
result is `(pulseVal k, pulseVal k)` regardless of the incoming pair. -/
theorem pulseUpd_eq (k : ℕ) (qu : ℚ × ℚ) :
    pulseUpd k qu = (pulseVal k, pulseVal k) := by
  simp only [pulseUpd, pulseVal]
  by_cases h : 5 < k ∧ k < 10
  · rw [if_pos h, if_pos (by omega : 6 ≤ k ∧ k ≤ 9)]
  · rw [if_neg h, if_neg (by omega : ¬(6 ≤ k ∧ k ≤ 9))]

/-- The boundary pair fed into step `k` of the pulse experiment. -/
theorem quSeq_pulse (u c : ℚ) (k : ℕ) :
    quSeq pulseUpd u c (k + 1) = (pulseVal k, pulseVal k) := by
  rw [quSeq]
  exact pulseUpd_eq k _

/-! ### Claim theorems -/

/-- C6: a run with `tsteps = 0` produces empty `q_result` and `t_result`
and never invokes the solver (the recorded call trace is empty). -/
theorem zero_step_run (solver : Solver) (upd : ℕ → ℚ × ℚ → ℚ × ℚ)
    (qlat : ℚ) (p : ChannelParams) (u c q v d : ℚ) :
    (mcRun solver upd qlat (initState p u c q v d) 0).q_result = [] ∧
    (mcRun solver upd qlat (initState p u c q v d) 0).t_result = [] ∧
    (mcRun solver upd qlat (initState p u c q v d) 0).calls = [] :=
  ⟨rfl, rfl, rfl⟩

/-- C8: the stepping loop never mutates the channel, roughness, slope and
discretization parameters: after any number of steps from any starting
state they equal the values set before the loop began. -/
theorem geometry_immutable (solver : Solver) (upd : ℕ → ℚ × ℚ → ℚ × ℚ)
    (qlat : ℚ) (s : LoopState) (n : ℕ) :
    (mcRun solver upd qlat s n).ps = s.ps := by
  induction n with
  | zero => rfl
  | succ n ih => simpa [mcRun, mcStep] using ih

/-- C7: after `n` steps from freshly initialized accumulators, the two
result sequences are parallel with one entry per step: both have length
`n`, the `k`-th elapsed-time entry is `k * dt`, and the flow sequence is
exactly the solver's `qdc` output at each recorded call, in order. -/
theorem result_series (solver : Solver) (upd : ℕ → ℚ × ℚ → ℚ × ℚ)
    (qlat : ℚ) (p : ChannelParams) (u c q v d : ℚ) (n : ℕ) :
    (mcRun solver upd qlat (initState p u c q v d) n).q_result.length = n ∧
    (mcRun solver upd qlat (initState p u c q v d) n).t_result.length = n ∧
    (mcRun solver upd qlat (initState p u c q v d) n).t_result
      = (List.range n).map (fun k : ℕ => (k : ℚ) * p.dt) ∧
    (mcRun solver upd qlat (initState p u c q v d) n).q_result
      = (mcRun solver upd qlat (initState p u c q v d) n).calls.map
          (fun i => (solver i).qdc) := by
  refine ⟨?_, ?_, mcRun_t_result solver upd qlat p u c q v d n, ?_⟩
  · rw [mcRun_q_result, List.length_map, List.length_range]
  · rw [mcRun_t_result, List.length_map, List.length_range]
  · rw [mcRun_q_result, mcRun_calls, List.map_map]
    rfl

/-- C1: state-threading correctness.  The previous-state triple
`(qdp, velp, depthp)` of the first solver call is exactly the externally
supplied initial conditions, and the previous-state triple of every later
call is exactly the `(qdc, velc, depthc)` triple the solver returned at the
preceding call; the final loop state is the last call's returned triple, so
there is no other path by which the state advances.  (Stated as a list
identity: the initial triple followed by the per-call output triples equals
the per-call input triples followed by the final state.) -/
theorem state_threading (solver : Solver) (upd : ℕ → ℚ × ℚ → ℚ × ℚ)
    (qlat : ℚ) (p : ChannelParams) (u c q v d : ℚ) (n : ℕ) :
    ((q, v, d) : ℚ × ℚ × ℚ) ::
        (mcRun solver upd qlat (initState p u c q v d) n).calls.map
          (fun i => ((solver i).qdc, (solver i).velc, (solver i).depthc))
      = (mcRun solver upd qlat (initState p u c q v d) n).calls.map
            (fun i => (i.qdp, i.velp, i.depthp))
          ++ [((mcRun solver upd qlat (initState p u c q v d) n).qdp,
               (mcRun solver upd qlat (initState p u c q v d) n).velp,
               (mcRun solver upd qlat (initState p u c q v d) n).depthp)] := by
  rw [mcRun_eq]
  simp only [initState, List.nil_append, List.map_map]
  exact cons_map_succ_range (stSeq solver upd qlat p u c q v d) n

/-- C2: pulse generator exact scenario.  In experiment 2 (`tsteps = 60`,
baseline `0.21`, pulse value `1`), the `qus` record of the upstream
boundary flow, and the `qup`/`quc` values actually passed to the solver,
equal the pulse value `1` exactly at steps `k ∈ {6, 7, 8, 9}` and the
baseline `0.21` at every other step of `[0, 59]`, including all `k ≥ 10` —
for every possible solver. -/
theorem pulse_exact_scenario (solver : Solver) :
    (exp2Run solver 60).qus = (List.range 60).map pulseVal ∧
    (exp2Run solver 60).calls.map (fun i => (i.qup, i.quc))
      = (List.range 60).map (fun k => (pulseVal k, pulseVal k)) := by
  constructor
  · rw [exp2Run, exp2Init, mcRun_qus]
    simp only [quSeq_pulse]
  · rw [exp2Run, exp2Init, mcRun_calls, List.map_map]
    simp only [Function.comp_def]
    simp only [callAt, mkInput]
    simp only [quSeq_pulse]

/-- C10: in every solver call made by either experiment, the upstream flow
at the previous timestep equals the upstream flow at the current timestep:
`qup` and `quc` are assigned the same value together at initialization and
in every branch of the pulse conditional, so the demonstrations never
exercise `qup ≠ quc`. -/
theorem qup_always_equals_quc (solver : Solver) :
    (exp1Run solver 60).calls.map SolverInput.qup
      = (exp1Run solver 60).calls.map SolverInput.quc ∧
    (exp2Run solver 60).calls.map SolverInput.qup
      = (exp2Run solver 60).calls.map SolverInput.quc := by
  constructor
  · rw [exp1Run, exp1Init, mcRun_calls, List.map_map, List.map_map]
    simp only [Function.comp_def]
    simp only [callAt, mkInput]
    simp only [quSeq_id]
  · rw [exp2Run, exp2Init, mcRun_calls, List.map_map, List.map_map]
    simp only [Function.comp_def]
    simp only [callAt, mkInput]
    simp only [quSeq_pulse]

/-! ### Re-running the experiment cells (determinism / idempotence)

The experiment cells live in a notebook, so when one is re-run the Python
globals still hold whatever an earlier run left behind.  `resetExp1` and
`resetExp2` perform exactly the assignments each cell makes before its
loop: experiment 1 reassigns the boundary pair, the state triple and the
two result lists; experiment 2 additionally reassigns `qus`.  Neither cell
reassigns the parameter cells' values (`dt`, `dx`, `bw`, …), which is why
the determinism theorem fixes `ps`. -/

/-- The pre-loop assignments of the experiment 1 cell applied to a stale
environment (the ghost `calls` trace restarts with the loop). -/
def resetExp1 (env : LoopState) : LoopState :=
  { env with
    qup := 41/100, quc := 41/100, qdp := 21/100, depthp := 1/100,
    velp := 7/100, q_result := [], t_result := [], calls := [] }

/-- Re-running the experiment 1 cell on a stale environment. -/
def exp1Cell (solver : Solver) (env : LoopState) : LoopState :=
  mcRun solver idUpd 0 (resetExp1 env) 60

/-- The pre-loop assignments of the experiment 2 cell applied to a stale
environment. -/
def resetExp2 (env : LoopState) : LoopState :=
  { env with
    qup := 21/100, quc := 21/100, qdp := 21/100, depthp := 1/100,
    velp := 7/100, q_result := [], t_result := [], qus := [], calls := [] }

/-- Re-running the experiment 2 cell on a stale environment. -/
def exp2Cell (solver : Solver) (env : LoopState) : LoopState :=
  mcRun solver pulseUpd 0 (resetExp2 env) 60

/-- C5: determinism and run idempotence.  For a fixed solver and fixed
parameter configuration, re-running an experiment cell produces identical
outputs regardless of any state a previous run left in the environment:
experiment 2's entire resulting state coincides, and experiment 1's
`q_result` and `t_result` coincide (its cell does not reassign `qus`).
In particular, running the same configuration twice yields identical
output sequences; no hidden global state advances the run. -/
theorem run_deterministic (solver : Solver) (env1 env2 : LoopState)
    (h : env1.ps = env2.ps) :
    exp2Cell solver env1 = exp2Cell solver env2 ∧
    (exp1Cell solver env1).q_result = (exp1Cell solver env2).q_result ∧
    (exp1Cell solver env1).t_result = (exp1Cell solver env2).t_result := by
  have h2 : resetExp2 env1 = resetExp2 env2 := by
    unfold resetExp2
    rw [h]
  have e1q : ∀ env : LoopState, (exp1Cell solver env).q_result
      = (List.range 60).map (fun k =>
          (solver (callAt solver idUpd 0 env.ps (41/100) (41/100) (21/100)
            (7/100) (1/100) k)).qdc) := by
    intro env
    rw [exp1Cell, mcRun_eq]
    rfl
  have e1t : ∀ env : LoopState, (exp1Cell solver env).t_result
      = (List.range 60).map (fun k : ℕ => (k : ℚ) * env.ps.dt) := by
    intro env
    rw [exp1Cell, mcRun_eq]
    rfl
  refine ⟨by rw [exp2Cell, exp2Cell, h2], ?_, ?_⟩
  · rw [e1q, e1q, h]
  · rw [e1t, e1t, h]

/-- Two stale environments that differ in every run-scoped variable but
share the parameter configuration. -/
def staleEnvA : LoopState :=
  { ps := demoParams, qup := 5, quc := 6, qdp := 7, velp := 8, depthp := 9,
    q_result := [1, 2, 3], t_result := [4], qus := [5], calls := [] }

/-- A second stale environment with the same parameters as `staleEnvA`. -/
def staleEnvB : LoopState :=
  { ps := demoParams, qup := 0, quc := 0, qdp := 0, velp := 0, depthp := 0,
    q_result := [], t_result := [], qus := [], calls := [] }

/-- A concrete stand-in solver used to instantiate hypotheses at concrete
inputs: it echoes the previous state back. -/
def constSolver : Solver :=
  fun i => { qdc := i.qdp, velc := i.velp, depthc := i.depthp }

/-- Witness for C5 at concrete inputs. -/
theorem run_deterministic_witness :
    staleEnvA.ps = staleEnvB.ps ∧
    (exp2Cell constSolver staleEnvA = exp2Cell constSolver staleEnvB ∧
     (exp1Cell constSolver staleEnvA).q_result
       = (exp1Cell constSolver staleEnvB).q_result ∧
     (exp1Cell constSolver staleEnvA).t_result
       = (exp1Cell constSolver staleEnvB).t_result) :=
  ⟨rfl, run_deterministic constSolver staleEnvA staleEnvB rfl⟩

/-! ### Solver loading (experiment 0: obtaining `singlesegment`) -/

/-- The import cell's `try`/`except` chain: try the prebuilt module; on
failure try the `f2py3`-compiled module; on failure print the exception
and continue with nothing bound.  The cell itself never re-raises. -/
def cell4Load (prebuilt compiled : Option Solver) : Option Solver :=
  match prebuilt with
  | some m => some m
  | none => compiled

/-- The one failure the loading sequence can surface. -/
inductive LoadError where
  | solverUnavailable
  deriving DecidableEq

/-- Modelled from the spec: the notebook then executes
`from mc_sseg_stime_NOLOOP_demo import singlesegment`.  That wrapper module
is not among the reviewed sources; per the spec it "contains a function
called `singlesegment()` that calls the Fortran MC routing routine", so
importing it raises when the compiled routine is unavailable and binds the
routine otherwise — it cannot bind a default in the unavailable case. -/
def importSinglesegment (avail : Option Solver) : Except LoadError Solver :=
  match avail with
  | some s => Except.ok s
  | none => Except.error LoadError.solverUnavailable

/-- The notebook as a sequential script: load the solver, import
`singlesegment`, then run the stepping loop.  An import failure aborts the
script before the loop. -/
def notebookRun (prebuilt compiled : Option Solver) (upd : ℕ → ℚ × ℚ → ℚ × ℚ)
    (qlat : ℚ) (s : LoopState) (n : ℕ) : Except LoadError LoopState :=
  match importSinglesegment (cell4Load prebuilt compiled) with
  | Except.error e => Except.error e
  | Except.ok solver => Except.ok (mcRun solver upd qlat s n)

/-- C3: solver-unavailable fail-fast.  If neither the prebuilt nor the
compiled routing module can be loaded, the whole run is the import error:
the failure is surfaced to the caller before any timestep executes, and no
output state — in particular no default, stale or zero triple — is ever
produced. -/
theorem solver_unavailable_fail_fast (prebuilt compiled : Option Solver)
    (upd : ℕ → ℚ × ℚ → ℚ × ℚ) (qlat : ℚ) (s : LoopState) (n : ℕ)
    (h : cell4Load prebuilt compiled = none) :
    notebookRun prebuilt compiled upd qlat s n
      = Except.error LoadError.solverUnavailable := by
  rw [notebookRun, h]
  rfl

/-- Witness for C3 at concrete inputs: both load attempts fail. -/
theorem solver_unavailable_fail_fast_witness :
    notebookRun none none idUpd 0 exp1Init 60
      = Except.error LoadError.solverUnavailable :=
  solver_unavailable_fail_fast none none idUpd 0 exp1Init 60 rfl

/-! ### Parameter validation (C4) -/

/-- The notebook's parameters with the floodplain width narrowed below the
bankfull width (`twcc = 400 < 448 = tw`): an invalid configuration per the
spec's data model. -/
def badParams : ChannelParams := { demoParams with twcc := 400 }

/-- C4 counterexample: with floodplain width less than bankfull width the
run does not fail before the first timestep — the solver is invoked
anyway (the call trace after one step is nonempty), so the claimed
boundary rejection does not exist in the code. -/
theorem boundary_rejection_cex :
    badParams.twcc < badParams.tw ∧
    (mcRun constSolver idUpd 0
        (initState badParams (41/100) (41/100) (21/100) (7/100) (1/100)) 1).calls
      ≠ [] := by
  constructor
  · norm_num [badParams, demoParams]
  · rw [mcRun_calls]
    simp

/-- C4 amended: the harness performs no parameter validation.  Even when
the floodplain width is less than the bankfull width, or the timestep or
segment length is non-positive, the stepping loop still runs and invokes
the solver once per step, passing the invalid `dt`, `dx`, `tw`, `twcc`
through unchanged. -/
theorem no_boundary_rejection (solver : Solver) (upd : ℕ → ℚ × ℚ → ℚ × ℚ)
    (qlat u c q v d : ℚ) (p : ChannelParams)
    (hp : p.twcc < p.tw ∨ p.dt ≤ 0 ∨ p.dx ≤ 0) (n : ℕ) :
    (mcRun solver upd qlat (initState p u c q v d) n).calls.length = n ∧
    (mcRun solver upd qlat (initState p u c q v d) n).calls.map
        (fun i => (i.dt, i.dx, i.tw, i.twcc))
      = List.replicate n (p.dt, p.dx, p.tw, p.twcc) := by
  constructor
  · rw [mcRun_calls, List.length_map, List.length_range]
  · rw [mcRun_calls, List.map_map]
    have hfun : ((fun i : SolverInput => (i.dt, i.dx, i.tw, i.twcc))
          ∘ callAt solver upd qlat p u c q v d)
        = fun _ : ℕ => (p.dt, p.dx, p.tw, p.twcc) := rfl
    rw [hfun, List.map_const', List.length_range]

/-- Witness for the amended C4 at concrete inputs: the invalid
configuration `badParams` still produces one solver call in one step. -/
theorem no_boundary_rejection_witness :
    (mcRun constSolver idUpd 0
        (initState badParams (41/100) (41/100) (21/100) (7/100) (1/100)) 1).calls.length
      = 1 ∧
    (mcRun constSolver idUpd 0
        (initState badParams (41/100) (41/100) (21/100) (7/100) (1/100)) 1).calls.map
        (fun i => (i.dt, i.dx, i.tw, i.twcc))
      = List.replicate 1 (badParams.dt, badParams.dx, badParams.tw, badParams.twcc) :=
  no_boundary_rejection constSolver idUpd 0 (41/100) (41/100) (21/100) (7/100) (1/100)
    badParams (Or.inl (by norm_num [badParams, demoParams])) 1

end MC
